import Mathlib

/-!
# Verification of the WhatsApp message-sender CLI

This file gives a shallow embedding of the two variants of the
`send_whatsapp.js` script and proves properties of their behavior.

* the *enhanced* variant (`notifier/send_whatsapp.js`, with normalization of
  the recipient, a numeric-identifier fallback lookup, a 3-second delay after
  a successful send, and distinct exit codes 0/1/2/3);
* the *minimal* variant (`patient_watcher_plus/notifier/send_whatsapp.js`,
  which matches by display name only and always calls `process.exit(0)` from
  its `finally` block).

JavaScript control flow is modelled with an explicit effect-trace semantics:
a computation is a pair of the list of observable effects it emits and an
`Outcome` which is either a returned value, a thrown (uncaught) exception, or
a call to `process.exit`.  `try/catch`, `try/finally` and `process.exit`'s
non-local termination are modelled by `tryCatchComp`, `tryFinallyComp` and
`processExit`.  The behavior of the external `whatsapp-web.js` library is an
explicit environment `Env`: the result of `client.getChats()`, the result of
`chat.sendMessage(...)`, and whether `client.destroy()` throws.
-/

/-- Output stream of a `console.log` / `console.error` call. -/
inductive StdStream where
  | stdout
  | stderr
  deriving DecidableEq, Repr

/-- The numeric identifier part of a chat id (`chat.id.user` in the source). -/
structure ChatId where
  user : String
  deriving DecidableEq, Repr

/-- A chat as the script sees it: a display name and an id (`c.name`,
`c.id.user`). -/
structure Chat where
  name : String
  id : ChatId
  deriving DecidableEq, Repr

/-- The identifier field of a send acknowledgment (`res.id.id`). -/
structure MsgId where
  id : String
  deriving DecidableEq, Repr

/-- Result object of `chat.sendMessage`; only `res.id.id` is read. -/
structure SendResult where
  id : MsgId
  deriving DecidableEq, Repr

/-- Observable effects of a run of the script. -/
inductive Effect where
  | log (s : StdStream) (msg : String)
  | qrRender (token : String)
  | sessionCreate
  | sendCall (chat : Chat) (text : String)
  | waitMs (ms : Nat)
  | destroyCall
  deriving DecidableEq, Repr

/-- How a JavaScript computation finishes: a value, an uncaught thrown
exception, or process termination via `process.exit code`. -/
inductive Outcome (α : Type) where
  | value (a : α)
  | thrown (e : String)
  | exited (code : Nat)
  deriving DecidableEq, Repr

/-- `true` exactly when the outcome is a `process.exit` call. -/
def Outcome.isExit {α : Type} : Outcome α → Bool
  | Outcome.exited _ => true
  | _ => false

/-- A computation: the effects it emits, and its outcome. -/
abbrev Comp (α : Type) := List Effect × Outcome α

/-- A pure value: no effects. -/
def compPure {α : Type} (a : α) : Comp α := ([], Outcome.value a)

/-- Sequential composition; a thrown exception or a `process.exit` in the
first part skips the second (`await x; f x`). -/
def compBind {α β : Type} (x : Comp α) (f : α → Comp β) : Comp β :=
  match x.2 with
  | Outcome.value a => (x.1 ++ (f a).1, (f a).2)
  | Outcome.thrown e => (x.1, Outcome.thrown e)
  | Outcome.exited c => (x.1, Outcome.exited c)

/-- `try { x } catch (e) { h e }`: a thrown exception is handed to the
handler; a value or a `process.exit` passes through. -/
def tryCatchComp {α : Type} (x : Comp α) (h : String → Comp α) : Comp α :=
  match x.2 with
  | Outcome.thrown e => (x.1 ++ (h e).1, (h e).2)
  | _ => x

/-- `try { x } finally { fin }`: the finalizer runs after a value or a thrown
exception (and its own thrown exception or exit overrides the outcome), but
`process.exit` inside the protected block terminates at once and the
finalizer never runs. -/
def tryFinallyComp {α : Type} (x : Comp α) (fin : Comp Unit) : Comp α :=
  match x.2 with
  | Outcome.exited c => (x.1, Outcome.exited c)
  | _ =>
    match fin.2 with
    | Outcome.value _ => (x.1 ++ fin.1, x.2)
    | Outcome.thrown e => (x.1 ++ fin.1, Outcome.thrown e)
    | Outcome.exited c => (x.1 ++ fin.1, Outcome.exited c)

/-- `process.exit(code)`. -/
def processExit {α : Type} (code : Nat) : Comp α := ([], Outcome.exited code)

/-- `console.log msg`. -/
def consoleLog (msg : String) : Comp Unit :=
  ([Effect.log StdStream.stdout msg], Outcome.value ())

/-- `console.error msg`. -/
def consoleError (msg : String) : Comp Unit :=
  ([Effect.log StdStream.stderr msg], Outcome.value ())

/-- `qrcode.generate(token, { small: true })`. -/
def qrGenerate (token : String) : Comp Unit :=
  ([Effect.qrRender token], Outcome.value ())

/-- `await new Promise(r => setTimeout(r, ms))`. -/
def waitComp (ms : Nat) : Comp Unit :=
  ([Effect.waitMs ms], Outcome.value ())

/-- Construction of the `Client` object (`new Client({...})`). -/
def sessionCreateComp : Comp Unit :=
  ([Effect.sessionCreate], Outcome.value ())

/-- Behavior of the external `whatsapp-web.js` library during one run. -/
structure Env where
  getChatsResult : Except String (List Chat)
  sendMessageResult : Chat → String → Except String SendResult
  destroyThrows : Bool

/-- `await client.getChats()`. -/
def getChats (env : Env) : Comp (List Chat) :=
  match env.getChatsResult with
  | Except.ok cs => ([], Outcome.value cs)
  | Except.error e => ([], Outcome.thrown e)

/-- `await chat.sendMessage(text)`. -/
def sendMessage (env : Env) (c : Chat) (text : String) : Comp SendResult :=
  match env.sendMessageResult c text with
  | Except.ok r => ([Effect.sendCall c text], Outcome.value r)
  | Except.error e => ([Effect.sendCall c text], Outcome.thrown e)

/-- `await client.destroy()`. -/
def destroy (env : Env) : Comp Unit :=
  if env.destroyThrows then ([Effect.destroyCall], Outcome.thrown "destroy failed")
  else ([Effect.destroyCall], Outcome.value ())

/-- Session lifecycle events fired by the library. -/
inductive Event where
  | qr (token : String)
  | ready
  | authFailure (m : String)
  deriving DecidableEq, Repr

namespace Enhanced

/-- The usage message of the enhanced variant. -/
def usageMsg : String := "Usage: node send_whatsapp.js \x22Recipient\x22 \x22Message text\x22"

/-- `recipientRaw.replace(/[+ ]/g, '')`: drop every `+` and every space. -/
def normalizeRecipient (s : String) : String :=
  String.mk (s.data.filter (fun ch => !(ch == '+' || ch == ' ')))

/-- `async function gracefulExit(code)`:
`try { await client.destroy(); } catch { } process.exit(code);`. -/
def gracefulExit (env : Env) (code : Nat) : Comp Unit :=
  compBind (tryCatchComp (destroy env) (fun _ => compPure ()))
    (fun _ => processExit code)

/-- `async function send(chat)`: send the message, log the queued id, wait
3000 ms and exit 0; on a thrown exception log the failure and exit 1. -/
def send (env : Env) (message : String) (chat : Chat) : Comp Unit :=
  tryCatchComp
    (compBind (sendMessage env chat message) (fun res =>
      compBind (consoleLog ("Message queued: " ++ res.id.id)) (fun _ =>
        compBind (waitComp 3000) (fun _ => gracefulExit env 0))))
    (fun err =>
      compBind (consoleError ("Failed to send message: " ++ err)) (fun _ =>
        gracefulExit env 1))

/-- `chats.find(c => c.name === recipientRaw) || chats.find(c => c.id.user === recipient)`. -/
def findChat (recipientRaw recipient : String) (chats : List Chat) : Option Chat :=
  match chats.find? (fun c => c.name == recipientRaw) with
  | some c => some c
  | none => chats.find? (fun c => c.id.user == recipient)

/-- The `ready` handler of the enhanced variant. -/
def readyHandler (env : Env) (recipientRaw recipient message : String) : Comp Unit :=
  tryCatchComp
    (compBind (getChats env) (fun chats =>
      match findChat recipientRaw recipient chats with
      | none =>
          compBind (consoleError ("Chat \x22" ++ recipientRaw ++ "\x22 not found."))
            (fun _ => gracefulExit env 2)
      | some chat => send env message chat))
    (fun err =>
      compBind (consoleError ("Unexpected error: " ++ err)) (fun _ =>
        gracefulExit env 3))

/-- Dispatch of one library event to its registered handler. -/
def handleEvent (env : Env) (recipientRaw recipient message : String) :
    Event → Comp Unit
  | Event.qr token =>
      compBind (qrGenerate token) (fun _ =>
        consoleLog "Scan the QR to authenticate.")
  | Event.ready => readyHandler env recipientRaw recipient message
  | Event.authFailure m => consoleError ("Auth failure " ++ m)

/-- Sequential processing of the events fired during the run; stops when a
handler terminates the process. -/
def runEvents (env : Env) (recipientRaw recipient message : String) :
    List Event → Comp Unit
  | [] => compPure ()
  | e :: rest =>
      compBind (handleEvent env recipientRaw recipient message e) (fun _ =>
        runEvents env recipientRaw recipient message rest)

/-- The whole enhanced script: argument validation, then client creation and
the event loop.  `args` is `process.argv` minus the first two entries. -/
def main (env : Env) (events : List Event) (args : List String) : Comp Unit :=
  match args with
  | [] => compBind (consoleError usageMsg) (fun _ => processExit 1)
  | recipientRaw :: msgParts =>
    let message := String.intercalate " " msgParts
    if recipientRaw == "" || message == "" then
      compBind (consoleError usageMsg) (fun _ => processExit 1)
    else
      compBind sessionCreateComp (fun _ =>
        runEvents env recipientRaw (normalizeRecipient recipientRaw) message events)

end Enhanced

namespace Minimal

/-- The usage message of the minimal variant. -/
def usageMsg : String := "Usage: node send_whatsapp.js \x22Recipient Name\x22 \x22Message text\x22"

/-- `chats.find(c => c.name === recipient)`: name match only. -/
def findChat (recipient : String) (chats : List Chat) : Option Chat :=
  chats.find? (fun c => c.name == recipient)

/-- The `ready` handler of the minimal variant:
`try { ... } catch (err) { ... } finally { await client.destroy(); process.exit(0); }`. -/
def readyHandler (env : Env) (recipient message : String) : Comp Unit :=
  tryFinallyComp
    (tryCatchComp
      (compBind (getChats env) (fun chats =>
        match findChat recipient chats with
        | none => consoleError ("Chat \x22" ++ recipient ++ "\x22 not found.")
        | some chat =>
            compBind (sendMessage env chat message) (fun _ =>
              consoleLog ("Message sent: " ++ message))))
      (fun err => consoleError ("Failed to send message: " ++ err)))
    (compBind (destroy env) (fun _ => processExit 0))

/-- Dispatch of one library event to its registered handler. -/
def handleEvent (env : Env) (recipient message : String) : Event → Comp Unit
  | Event.qr token =>
      compBind (qrGenerate token) (fun _ =>
        consoleLog "Scan the QR code above in WhatsApp to authenticate.")
  | Event.ready => readyHandler env recipient message
  | Event.authFailure m => consoleError ("Auth failure " ++ m)

/-- Sequential processing of the events fired during the run. -/
def runEvents (env : Env) (recipient message : String) : List Event → Comp Unit
  | [] => compPure ()
  | e :: rest =>
      compBind (handleEvent env recipient message e) (fun _ =>
        runEvents env recipient message rest)

/-- The whole minimal script. -/
def main (env : Env) (events : List Event) (args : List String) : Comp Unit :=
  match args with
  | [] => compBind (consoleError usageMsg) (fun _ => processExit 1)
  | recipient :: msgParts =>
    let message := String.intercalate " " msgParts
    if recipient == "" || message == "" then
      compBind (consoleError usageMsg) (fun _ => processExit 1)
    else
      compBind sessionCreateComp (fun _ =>
        runEvents env recipient message events)

end Minimal

/-! ## Sample data used by witnesses and counterexamples -/

/-- A chat named `Alice` with numeric user `15551234567`. -/
def aliceChat : Chat := ⟨"Alice", ⟨"15551234567"⟩⟩

/-- A chat named `Dup` with numeric user `1`. -/
def dupA : Chat := ⟨"Dup", ⟨"1"⟩⟩

/-- A second chat also named `Dup`, with numeric user `2`. -/
def dupB : Chat := ⟨"Dup", ⟨"2"⟩⟩

/-- A successful send acknowledgment with id `MSG1`. -/
def okResult : SendResult := ⟨⟨"MSG1"⟩⟩

/-- Environment: one chat (`Alice`), sends succeed, destroy succeeds. -/
def envOk : Env := ⟨Except.ok [aliceChat], fun _ _ => Except.ok okResult, false⟩

/-- Environment: one chat (`Alice`), sends throw `boom`, destroy succeeds. -/
def envSendFail : Env := ⟨Except.ok [aliceChat], fun _ _ => Except.error "boom", false⟩

/-- Environment: one chat (`Alice`), sends succeed, destroy throws. -/
def envDestroyFail : Env := ⟨Except.ok [aliceChat], fun _ _ => Except.ok okResult, true⟩

/-! ## Basic lemmas about the embedding -/

/-- `gracefulExit` always destroys the session once and exits with the given
code, whether or not `client.destroy()` throws. -/
theorem gracefulExit_eq (env : Env) (code : Nat) :
    Enhanced.gracefulExit env code = ([Effect.destroyCall], Outcome.exited code) := by
  cases h : env.destroyThrows <;>
    simp [Enhanced.gracefulExit, destroy, h, tryCatchComp, compBind, processExit, compPure]

/-- `List.find?` returns the first element satisfying the predicate. -/
theorem find_first {α : Type} (p : α → Bool) (l1 l2 : List α) (c : α)
    (h1 : ∀ x ∈ l1, p x = false) (hc : p c = true) :
    (l1 ++ c :: l2).find? p = some c := by
  induction l1 with
  | nil => simpa using List.find?_cons_of_pos l2 hc
  | cons a t ih =>
      have ha : ¬ p a = true := by simp [h1 a (by simp)]
      have ht : ∀ x ∈ t, p x = false := fun x hx => h1 x (by simp [hx])
      simpa [List.find?_cons_of_neg _ ha] using ih ht

/-- Enhanced ready handler, branch: chats retrieved, a chat found, send
succeeds.  One send call, the queued-id log, the 3-second wait, one destroy,
exit 0. -/
theorem Enhanced.readyHandler_send_ok (env : Env) (rr r msg : String)
    (chats : List Chat) (c : Chat) (res : SendResult)
    (hg : env.getChatsResult = Except.ok chats)
    (hf : Enhanced.findChat rr r chats = some c)
    (hs : env.sendMessageResult c msg = Except.ok res) :
    Enhanced.readyHandler env rr r msg =
      ([Effect.sendCall c msg,
        Effect.log StdStream.stdout ("Message queued: " ++ res.id.id),
        Effect.waitMs 3000, Effect.destroyCall], Outcome.exited 0) := by
  simp [Enhanced.readyHandler, Enhanced.send, getChats, hg, hf, sendMessage, hs,
        tryCatchComp, compBind, consoleError, consoleLog, gracefulExit_eq, waitComp]

/-- Enhanced ready handler, branch: chats retrieved, a chat found, send
throws.  One send call, the failure log, one destroy, exit 1. -/
theorem Enhanced.readyHandler_send_fail (env : Env) (rr r msg err : String)
    (chats : List Chat) (c : Chat)
    (hg : env.getChatsResult = Except.ok chats)
    (hf : Enhanced.findChat rr r chats = some c)
    (hs : env.sendMessageResult c msg = Except.error err) :
    Enhanced.readyHandler env rr r msg =
      ([Effect.sendCall c msg,
        Effect.log StdStream.stderr ("Failed to send message: " ++ err),
        Effect.destroyCall], Outcome.exited 1) := by
  simp [Enhanced.readyHandler, Enhanced.send, getChats, hg, hf, sendMessage, hs,
        tryCatchComp, compBind, consoleError, consoleLog, gracefulExit_eq, waitComp]

/-- Enhanced ready handler, branch: chats retrieved, no chat matches.  The
not-found log, one destroy, exit 2, and no send call. -/
theorem Enhanced.readyHandler_not_found (env : Env) (rr r msg : String)
    (chats : List Chat)
    (hg : env.getChatsResult = Except.ok chats)
    (hf : Enhanced.findChat rr r chats = none) :
    Enhanced.readyHandler env rr r msg =
      ([Effect.log StdStream.stderr ("Chat \x22" ++ rr ++ "\x22 not found."),
        Effect.destroyCall], Outcome.exited 2) := by
  simp [Enhanced.readyHandler, getChats, hg, hf,
        tryCatchComp, compBind, consoleError, gracefulExit_eq]

/-- Enhanced ready handler, branch: `getChats` throws.  The unexpected-error
log, one destroy, exit 3. -/
theorem Enhanced.readyHandler_lookup_fail (env : Env) (rr r msg err : String)
    (hg : env.getChatsResult = Except.error err) :
    Enhanced.readyHandler env rr r msg =
      ([Effect.log StdStream.stderr ("Unexpected error: " ++ err),
        Effect.destroyCall], Outcome.exited 3) := by
  simp [Enhanced.readyHandler, getChats, hg,
        tryCatchComp, compBind, consoleError, gracefulExit_eq]

/-- Minimal ready handler, branch: a chat found, send succeeds, destroy
succeeds.  One send call, the sent log, one destroy, exit 0. -/
theorem Minimal.readyHandler_send_ok_min (env : Env) (r msg : String)
    (chats : List Chat) (c : Chat) (res : SendResult)
    (hg : env.getChatsResult = Except.ok chats)
    (hf : Minimal.findChat r chats = some c)
    (hs : env.sendMessageResult c msg = Except.ok res)
    (hd : env.destroyThrows = false) :
    Minimal.readyHandler env r msg =
      ([Effect.sendCall c msg,
        Effect.log StdStream.stdout ("Message sent: " ++ msg),
        Effect.destroyCall], Outcome.exited 0) := by
  simp [Minimal.readyHandler, getChats, hg, hf, sendMessage, hs, destroy, hd,
        tryCatchComp, tryFinallyComp, compBind, consoleError, consoleLog, processExit]

/-- Minimal ready handler, branch: a chat found, send throws, destroy
succeeds.  One send call, the failure log, one destroy, exit 0. -/
theorem Minimal.readyHandler_send_fail_min (env : Env) (r msg err : String)
    (chats : List Chat) (c : Chat)
    (hg : env.getChatsResult = Except.ok chats)
    (hf : Minimal.findChat r chats = some c)
    (hs : env.sendMessageResult c msg = Except.error err)
    (hd : env.destroyThrows = false) :
    Minimal.readyHandler env r msg =
      ([Effect.sendCall c msg,
        Effect.log StdStream.stderr ("Failed to send message: " ++ err),
        Effect.destroyCall], Outcome.exited 0) := by
  simp [Minimal.readyHandler, getChats, hg, hf, sendMessage, hs, destroy, hd,
        tryCatchComp, tryFinallyComp, compBind, consoleError, consoleLog, processExit]

/-- Minimal ready handler, branch: no chat matches, destroy succeeds.  The
not-found log, one destroy, exit 0, and no send call. -/
theorem Minimal.readyHandler_not_found_min (env : Env) (r msg : String)
    (chats : List Chat)
    (hg : env.getChatsResult = Except.ok chats)
    (hf : Minimal.findChat r chats = none)
    (hd : env.destroyThrows = false) :
    Minimal.readyHandler env r msg =
      ([Effect.log StdStream.stderr ("Chat \x22" ++ r ++ "\x22 not found."),
        Effect.destroyCall], Outcome.exited 0) := by
  simp [Minimal.readyHandler, getChats, hg, hf, destroy, hd,
        tryCatchComp, tryFinallyComp, compBind, consoleError, processExit]

/-- Enhanced `main`, usage path: a missing or empty recipient, or message
parts joining to the empty string, produce only the usage log and exit 1. -/
theorem Enhanced.main_usage (env : Env) (events : List Event) (args : List String)
    (h : args.head? = none ∨ args.head? = some "" ∨ String.intercalate " " args.tail = "") :
    Enhanced.main env events args =
      ([Effect.log StdStream.stderr Enhanced.usageMsg], Outcome.exited 1) := by
  match args with
  | [] => simp [Enhanced.main, compBind, consoleError, processExit]
  | rr :: parts =>
    simp only [List.head?_cons, List.tail_cons] at h
    have hcond : (rr == "" || String.intercalate " " parts == "") = true := by
      rcases h with h | h | h
      · exact absurd h (by simp)
      · simp [Option.some.injEq] at h
        simp [h]
      · simp [h]
    simp [Enhanced.main, hcond, compBind, consoleError, processExit]

/-- Minimal `main`, usage path. -/
theorem Minimal.main_usage_min (env : Env) (events : List Event) (args : List String)
    (h : args.head? = none ∨ args.head? = some "" ∨ String.intercalate " " args.tail = "") :
    Minimal.main env events args =
      ([Effect.log StdStream.stderr Minimal.usageMsg], Outcome.exited 1) := by
  match args with
  | [] => simp [Minimal.main, compBind, consoleError, processExit]
  | rr :: parts =>
    simp only [List.head?_cons, List.tail_cons] at h
    have hcond : (rr == "" || String.intercalate " " parts == "") = true := by
      rcases h with h | h | h
      · exact absurd h (by simp)
      · simp [Option.some.injEq] at h
        simp [h]
      · simp [h]
    simp [Minimal.main, hcond, compBind, consoleError, processExit]

/-- Enhanced `main`, validated path: with a non-empty recipient and message,
the client is created and the event loop runs with the normalized recipient. -/
theorem Enhanced.main_valid (env : Env) (events : List Event)
    (rr : String) (msgParts : List String)
    (hr : rr ≠ "") (hm : String.intercalate " " msgParts ≠ "") :
    Enhanced.main env events (rr :: msgParts) =
      (Effect.sessionCreate ::
        (Enhanced.runEvents env rr (Enhanced.normalizeRecipient rr)
          (String.intercalate " " msgParts) events).1,
       (Enhanced.runEvents env rr (Enhanced.normalizeRecipient rr)
          (String.intercalate " " msgParts) events).2) := by
  have hcond : (rr == "" || String.intercalate " " msgParts == "") = false := by
    simp [hr, hm]
  simp [Enhanced.main, hcond, compBind, sessionCreateComp]

/-- Minimal `main`, validated path. -/
theorem Minimal.main_valid_min (env : Env) (events : List Event)
    (r : String) (msgParts : List String)
    (hr : r ≠ "") (hm : String.intercalate " " msgParts ≠ "") :
    Minimal.main env events (r :: msgParts) =
      (Effect.sessionCreate ::
        (Minimal.runEvents env r (String.intercalate " " msgParts) events).1,
       (Minimal.runEvents env r (String.intercalate " " msgParts) events).2) := by
  have hcond : (r == "" || String.intercalate " " msgParts == "") = false := by
    simp [hr, hm]
  simp [Minimal.main, hcond, compBind, sessionCreateComp]

/-- Without a `ready` event, every enhanced handler returns normally and the
event loop never terminates the process. -/
theorem Enhanced.runEvents_no_ready (env : Env) (rr r msg : String)
    (events : List Event) (h : Event.ready ∉ events) :
    (Enhanced.runEvents env rr r msg events).2 = Outcome.value () := by
  induction events with
  | nil => rfl
  | cons e rest ih =>
    have he : e ≠ Event.ready := fun hx => h (by simp [hx])
    have hrest : Event.ready ∉ rest := fun hx => h (by simp [hx])
    cases e with
    | qr token =>
        simp [Enhanced.runEvents, Enhanced.handleEvent, qrGenerate, consoleLog,
              compBind, ih hrest]
    | ready => exact absurd rfl he
    | authFailure m =>
        simp [Enhanced.runEvents, Enhanced.handleEvent, consoleError,
              compBind, ih hrest]

/-- Without a `ready` event, every minimal handler returns normally and the
event loop never terminates the process. -/
theorem Minimal.runEvents_no_ready_min (env : Env) (r msg : String)
    (events : List Event) (h : Event.ready ∉ events) :
    (Minimal.runEvents env r msg events).2 = Outcome.value () := by
  induction events with
  | nil => rfl
  | cons e rest ih =>
    have he : e ≠ Event.ready := fun hx => h (by simp [hx])
    have hrest : Event.ready ∉ rest := fun hx => h (by simp [hx])
    cases e with
    | qr token =>
        simp [Minimal.runEvents, Minimal.handleEvent, qrGenerate, consoleLog,
              compBind, ih hrest]
    | ready => exact absurd rfl he
    | authFailure m =>
        simp [Minimal.runEvents, Minimal.handleEvent, consoleError,
              compBind, ih hrest]

/-! ## Claim theorems -/

/-- C3: for every invocation with a missing or empty recipient argument or a
missing or empty message (no message tokens, or tokens joining to the empty
string), both variants write their usage message to standard error and exit
with code 1, emitting no other effect — in particular no session is created. -/
theorem usage_validation :
    (∀ (env : Env) (events : List Event) (args : List String),
      (args.head? = none ∨ args.head? = some "" ∨ String.intercalate " " args.tail = "") →
      Enhanced.main env events args =
        ([Effect.log StdStream.stderr Enhanced.usageMsg], Outcome.exited 1)) ∧
    (∀ (env : Env) (events : List Event) (args : List String),
      (args.head? = none ∨ args.head? = some "" ∨ String.intercalate " " args.tail = "") →
      Minimal.main env events args =
        ([Effect.log StdStream.stderr Minimal.usageMsg], Outcome.exited 1)) :=
  ⟨Enhanced.main_usage, Minimal.main_usage_min⟩

/-- C3 witness: an empty recipient with a non-empty message exits 1 with only
the usage log. -/
theorem usage_validation_witness :
    Enhanced.main envOk [Event.ready] ["", "hi"] =
      ([Effect.log StdStream.stderr Enhanced.usageMsg], Outcome.exited 1) ∧
    Minimal.main envOk [Event.ready] [] =
      ([Effect.log StdStream.stderr Minimal.usageMsg], Outcome.exited 1) :=
  ⟨usage_validation.1 envOk [Event.ready] ["", "hi"] (Or.inr (Or.inl rfl)),
   usage_validation.2 envOk [Event.ready] [] (Or.inl rfl)⟩

/-- C7: the normalized fallback identifier is the recipient with every `+`
and every space removed and nothing else changed: its characters form a
sublist of the recipient's characters, none of them is `+` or a space, and
every other character keeps its multiplicity. -/
theorem normalize_characterization (s : String) :
    (Enhanced.normalizeRecipient s).data.Sublist s.data ∧
    (∀ ch ∈ (Enhanced.normalizeRecipient s).data, ch ≠ '+' ∧ ch ≠ ' ') ∧
    (∀ ch : Char, ch ≠ '+' → ch ≠ ' ' →
      (Enhanced.normalizeRecipient s).data.count ch = s.data.count ch) := by
  refine ⟨List.filter_sublist s.data, ?_, ?_⟩
  · intro ch hch
    simp only [Enhanced.normalizeRecipient, List.mem_filter] at hch
    have := hch.2
    simp only [Bool.not_eq_eq_eq_not, Bool.not_true, Bool.or_eq_false_iff,
               beq_eq_false_iff_ne, ne_eq] at this
    exact this
  · intro ch h1 h2
    simp only [Enhanced.normalizeRecipient]
    exact List.count_filter (by simp [h1, h2])

/-- C7 witness: the scenario recipient from the source comment. -/
theorem normalize_characterization_witness :
    (Enhanced.normalizeRecipient "+91 91234 56789").data.count '9' =
      "+91 91234 56789".data.count '9' :=
  (normalize_characterization "+91 91234 56789").2.2 '9' (by decide) (by decide)

/-- C2: when no chat matches the recipient, neither by exact display name nor
by the normalized numeric identifier, no send call is issued: the enhanced
variant logs "not found" and exits with code 2, and the minimal variant (when
destroy succeeds) logs "not found" and exits with the success code 0. -/
theorem not_found_behavior :
    (∀ (env : Env) (rr r msg : String) (chats : List Chat),
      env.getChatsResult = Except.ok chats →
      Enhanced.findChat rr r chats = none →
      Enhanced.readyHandler env rr r msg =
        ([Effect.log StdStream.stderr ("Chat \x22" ++ rr ++ "\x22 not found."),
          Effect.destroyCall], Outcome.exited 2)) ∧
    (∀ (env : Env) (r msg : String) (chats : List Chat),
      env.getChatsResult = Except.ok chats →
      Minimal.findChat r chats = none →
      env.destroyThrows = false →
      Minimal.readyHandler env r msg =
        ([Effect.log StdStream.stderr ("Chat \x22" ++ r ++ "\x22 not found."),
          Effect.destroyCall], Outcome.exited 0)) :=
  ⟨Enhanced.readyHandler_not_found, Minimal.readyHandler_not_found_min⟩

/-- C2 witness: recipient `Bob` against a chat list holding only `Alice`. -/
theorem not_found_behavior_witness :
    Enhanced.readyHandler envOk "Bob" "Bob" "hi" =
      ([Effect.log StdStream.stderr "Chat \x22Bob\x22 not found.",
        Effect.destroyCall], Outcome.exited 2) ∧
    Minimal.readyHandler envOk "Bob" "hi" =
      ([Effect.log StdStream.stderr "Chat \x22Bob\x22 not found.",
        Effect.destroyCall], Outcome.exited 0) :=
  ⟨not_found_behavior.1 envOk "Bob" "Bob" "hi" [aliceChat] rfl (by decide),
   not_found_behavior.2 envOk "Bob" "hi" [aliceChat] rfl (by decide) rfl⟩

/-- C4: when the send call succeeds, the session is destroyed exactly once
and the process exits 0; the enhanced variant awaits a fixed 3000 ms delay
between the successful send and the shutdown.  The full effect traces are
pinned down, so the single `destroyCall` and the position of the wait are
explicit. -/
theorem send_success_behavior :
    (∀ (env : Env) (rr r msg : String) (chats : List Chat) (c : Chat) (res : SendResult),
      env.getChatsResult = Except.ok chats →
      Enhanced.findChat rr r chats = some c →
      env.sendMessageResult c msg = Except.ok res →
      Enhanced.readyHandler env rr r msg =
        ([Effect.sendCall c msg,
          Effect.log StdStream.stdout ("Message queued: " ++ res.id.id),
          Effect.waitMs 3000, Effect.destroyCall], Outcome.exited 0)) ∧
    (∀ (env : Env) (r msg : String) (chats : List Chat) (c : Chat) (res : SendResult),
      env.getChatsResult = Except.ok chats →
      Minimal.findChat r chats = some c →
      env.sendMessageResult c msg = Except.ok res →
      env.destroyThrows = false →
      Minimal.readyHandler env r msg =
        ([Effect.sendCall c msg,
          Effect.log StdStream.stdout ("Message sent: " ++ msg),
          Effect.destroyCall], Outcome.exited 0)) :=
  ⟨Enhanced.readyHandler_send_ok, Minimal.readyHandler_send_ok_min⟩

/-- C4 witness: a successful send to `Alice`. -/
theorem send_success_behavior_witness :
    Enhanced.readyHandler envOk "Alice" "Alice" "hi" =
      ([Effect.sendCall aliceChat "hi",
        Effect.log StdStream.stdout "Message queued: MSG1",
        Effect.waitMs 3000, Effect.destroyCall], Outcome.exited 0) ∧
    Minimal.readyHandler envOk "Alice" "hi" =
      ([Effect.sendCall aliceChat "hi",
        Effect.log StdStream.stdout "Message sent: hi",
        Effect.destroyCall], Outcome.exited 0) :=
  ⟨send_success_behavior.1 envOk "Alice" "Alice" "hi" [aliceChat] aliceChat okResult
      rfl (by decide) rfl,
   send_success_behavior.2 envOk "Alice" "hi" [aliceChat] aliceChat okResult
      rfl (by decide) rfl rfl⟩

/-- C1 counterexample: with a chat list holding the recipient and a
`sendMessage` that throws, the enhanced variant exits with code 1, not with
code 3, and the minimal variant exits with the success code 0, not with a
non-zero code. -/
theorem send_failure_exit_code_cx :
    (Enhanced.readyHandler envSendFail "Alice" "Alice" "hi").2 = Outcome.exited 1 ∧
    (Enhanced.readyHandler envSendFail "Alice" "Alice" "hi").2 ≠ Outcome.exited 3 ∧
    (Minimal.readyHandler envSendFail "Alice" "hi").2 = Outcome.exited 0 := by
  refine ⟨by decide, ?_, by decide⟩
  intro h
  have h1 : (Enhanced.readyHandler envSendFail "Alice" "Alice" "hi").2 = Outcome.exited 1 := by
    decide
  rw [h1] at h
  exact absurd h (by decide)

/-- C1 (amended): when `sendMessage` throws, both variants log the failure to
standard error and destroy the session; the enhanced variant exits with
code 1 (code 3 is reserved for exceptions outside the send helper, such as a
`getChats` failure), and the minimal variant (when destroy succeeds) exits
with code 0. -/
theorem send_failure_exit_codes :
    (∀ (env : Env) (rr r msg err : String) (chats : List Chat) (c : Chat),
      env.getChatsResult = Except.ok chats →
      Enhanced.findChat rr r chats = some c →
      env.sendMessageResult c msg = Except.error err →
      Enhanced.readyHandler env rr r msg =
        ([Effect.sendCall c msg,
          Effect.log StdStream.stderr ("Failed to send message: " ++ err),
          Effect.destroyCall], Outcome.exited 1)) ∧
    (∀ (env : Env) (rr r msg err : String),
      env.getChatsResult = Except.error err →
      Enhanced.readyHandler env rr r msg =
        ([Effect.log StdStream.stderr ("Unexpected error: " ++ err),
          Effect.destroyCall], Outcome.exited 3)) ∧
    (∀ (env : Env) (r msg err : String) (chats : List Chat) (c : Chat),
      env.getChatsResult = Except.ok chats →
      Minimal.findChat r chats = some c →
      env.sendMessageResult c msg = Except.error err →
      env.destroyThrows = false →
      Minimal.readyHandler env r msg =
        ([Effect.sendCall c msg,
          Effect.log StdStream.stderr ("Failed to send message: " ++ err),
          Effect.destroyCall], Outcome.exited 0)) :=
  ⟨Enhanced.readyHandler_send_fail, Enhanced.readyHandler_lookup_fail,
   Minimal.readyHandler_send_fail_min⟩

/-- C1 witness: a send that throws `boom` against the `Alice` chat. -/
theorem send_failure_exit_codes_witness :
    Enhanced.readyHandler envSendFail "Alice" "Alice" "hi" =
      ([Effect.sendCall aliceChat "hi",
        Effect.log StdStream.stderr "Failed to send message: boom",
        Effect.destroyCall], Outcome.exited 1) ∧
    Minimal.readyHandler envSendFail "Alice" "hi" =
      ([Effect.sendCall aliceChat "hi",
        Effect.log StdStream.stderr "Failed to send message: boom",
        Effect.destroyCall], Outcome.exited 0) :=
  ⟨send_failure_exit_codes.1 envSendFail "Alice" "Alice" "hi" "boom" [aliceChat]
      aliceChat rfl (by decide) rfl,
   send_failure_exit_codes.2.2 envSendFail "Alice" "hi" "boom" [aliceChat]
      aliceChat rfl (by decide) rfl rfl⟩

/-- On every path of the enhanced ready handler the process exits and the
session is destroyed exactly once. -/
theorem Enhanced.readyHandler_exits (env : Env) (rr r msg : String) :
    ((Enhanced.readyHandler env rr r msg).2).isExit = true ∧
    (Enhanced.readyHandler env rr r msg).1.count Effect.destroyCall = 1 := by
  cases hg : env.getChatsResult with
  | error e =>
      rw [Enhanced.readyHandler_lookup_fail env rr r msg e hg]
      simp [List.count_cons, Outcome.isExit]
  | ok chats =>
      cases hf : Enhanced.findChat rr r chats with
      | none =>
          rw [Enhanced.readyHandler_not_found env rr r msg chats hg hf]
          simp [List.count_cons, Outcome.isExit]
      | some c =>
          cases hs : env.sendMessageResult c msg with
          | ok res =>
              rw [Enhanced.readyHandler_send_ok env rr r msg chats c res hg hf hs]
              simp [List.count_cons, Outcome.isExit]
          | error err =>
              rw [Enhanced.readyHandler_send_fail env rr r msg err chats c hg hf hs]
              simp [List.count_cons, Outcome.isExit]

/-- The outcome of the enhanced ready handler does not depend on whether
`client.destroy()` throws: the `catch { }` around it swallows the failure. -/
theorem Enhanced.readyHandler_destroy_independent
    (g : Except String (List Chat)) (sm : Chat → String → Except String SendResult)
    (rr r msg : String) :
    (Enhanced.readyHandler ⟨g, sm, true⟩ rr r msg).2 =
      (Enhanced.readyHandler ⟨g, sm, false⟩ rr r msg).2 := by
  cases g with
  | error e =>
      rw [Enhanced.readyHandler_lookup_fail ⟨Except.error e, sm, true⟩ rr r msg e rfl,
          Enhanced.readyHandler_lookup_fail ⟨Except.error e, sm, false⟩ rr r msg e rfl]
  | ok chats =>
      cases hf : Enhanced.findChat rr r chats with
      | none =>
          rw [Enhanced.readyHandler_not_found ⟨Except.ok chats, sm, true⟩ rr r msg chats rfl hf,
              Enhanced.readyHandler_not_found ⟨Except.ok chats, sm, false⟩ rr r msg chats rfl hf]
      | some c =>
          cases hs : sm c msg with
          | ok res =>
              rw [Enhanced.readyHandler_send_ok ⟨Except.ok chats, sm, true⟩ rr r msg chats c res rfl hf hs,
                  Enhanced.readyHandler_send_ok ⟨Except.ok chats, sm, false⟩ rr r msg chats c res rfl hf hs]
          | error err =>
              rw [Enhanced.readyHandler_send_fail ⟨Except.ok chats, sm, true⟩ rr r msg err chats c rfl hf hs,
                  Enhanced.readyHandler_send_fail ⟨Except.ok chats, sm, false⟩ rr r msg err chats c rfl hf hs]

/-- The minimal ready handler destroys the session exactly once; when destroy
succeeds it exits 0, and when destroy throws the exception escapes. -/
theorem Minimal.readyHandler_destroy (env : Env) (r msg : String) :
    (Minimal.readyHandler env r msg).1.count Effect.destroyCall = 1 ∧
    (env.destroyThrows = false → (Minimal.readyHandler env r msg).2 = Outcome.exited 0) ∧
    (env.destroyThrows = true →
      (Minimal.readyHandler env r msg).2 = Outcome.thrown "destroy failed") := by
  cases hd : env.destroyThrows <;>
  cases hg : env.getChatsResult with
  | ok chats =>
      cases hf : Minimal.findChat r chats with
      | none =>
          simp [Minimal.readyHandler, getChats, hg, hf, destroy, hd, tryCatchComp,
                tryFinallyComp, compBind, consoleError, processExit, List.count_cons]
      | some c =>
          cases hs : env.sendMessageResult c msg <;>
          simp [Minimal.readyHandler, getChats, hg, hf, sendMessage, hs, destroy, hd,
                tryCatchComp, tryFinallyComp, compBind, consoleError, consoleLog,
                processExit, List.count_cons]
  | error e =>
      simp [Minimal.readyHandler, getChats, hg, destroy, hd, tryCatchComp,
            tryFinallyComp, compBind, consoleError, processExit, List.count_cons]

/-- C5 counterexample: in the minimal variant, with a `client.destroy()` that
throws, the release step is attempted exactly once but its error is not
swallowed: the exception escapes the `finally` block and `process.exit(0)` is
never reached, so the process does not terminate with the primary exit code. -/
theorem release_error_not_swallowed_cx :
    (Minimal.readyHandler envDestroyFail "Alice" "hi").1.count Effect.destroyCall = 1 ∧
    (Minimal.readyHandler envDestroyFail "Alice" "hi").2 = Outcome.thrown "destroy failed" ∧
    ((Minimal.readyHandler envDestroyFail "Alice" "hi").2).isExit = false := by
  refine ⟨by decide, by decide, by decide⟩

/-- C5 (amended): session release is attempted exactly once on every exit
path after session creation.  In the enhanced variant its own failure is
swallowed — the exit outcome does not depend on whether destroy throws, and
the handler always exits.  In the minimal variant release is attempted
exactly once, but its error is not caught: destroy success gives exit 0,
while a destroy failure lets the exception escape instead of exiting. -/
theorem release_always_attempted :
    (∀ (env : Env) (rr r msg : String),
      ((Enhanced.readyHandler env rr r msg).2).isExit = true ∧
      (Enhanced.readyHandler env rr r msg).1.count Effect.destroyCall = 1) ∧
    (∀ (g : Except String (List Chat)) (sm : Chat → String → Except String SendResult)
      (rr r msg : String),
      (Enhanced.readyHandler ⟨g, sm, true⟩ rr r msg).2 =
        (Enhanced.readyHandler ⟨g, sm, false⟩ rr r msg).2) ∧
    (∀ (env : Env) (r msg : String),
      (Minimal.readyHandler env r msg).1.count Effect.destroyCall = 1 ∧
      (env.destroyThrows = false → (Minimal.readyHandler env r msg).2 = Outcome.exited 0) ∧
      (env.destroyThrows = true →
        (Minimal.readyHandler env r msg).2 = Outcome.thrown "destroy failed")) :=
  ⟨Enhanced.readyHandler_exits, Enhanced.readyHandler_destroy_independent,
   Minimal.readyHandler_destroy⟩

/-- C5 witness: with a throwing destroy, the enhanced handler still exits and
destroys once; with a succeeding destroy, the minimal handler exits 0. -/
theorem release_always_attempted_witness :
    (((Enhanced.readyHandler envDestroyFail "Alice" "Alice" "hi").2).isExit = true ∧
      (Enhanced.readyHandler envDestroyFail "Alice" "Alice" "hi").1.count
        Effect.destroyCall = 1) ∧
    (Minimal.readyHandler envOk "Alice" "hi").2 = Outcome.exited 0 :=
  ⟨release_always_attempted.1 envDestroyFail "Alice" "Alice" "hi",
   (release_always_attempted.2.2 envOk "Alice" "hi").2.1 rfl⟩

/-- A chat whose numeric user portion matches `aliceChat`'s, under another
name. -/
def numChat : Chat := ⟨"Numeric", ⟨"15551234567"⟩⟩

/-- Two chats sharing the numeric user portion `5`. -/
def idA : Chat := ⟨"A", ⟨"5"⟩⟩

/-- Second chat with numeric user portion `5`. -/
def idB : Chat := ⟨"B", ⟨"5"⟩⟩

/-- Enhanced `main` without a `ready` event: the process either never
terminates (all fired handlers return normally) or took the usage path. -/
theorem Enhanced.main_no_ready (env : Env) (args : List String) (events : List Event)
    (h : Event.ready ∉ events) :
    (Enhanced.main env events args).2 = Outcome.value () ∨
    Enhanced.main env events args =
      ([Effect.log StdStream.stderr Enhanced.usageMsg], Outcome.exited 1) := by
  match args with
  | [] => exact Or.inr (Enhanced.main_usage env events [] (Or.inl rfl))
  | rr :: parts =>
    by_cases hr : rr = ""
    · exact Or.inr (Enhanced.main_usage env events (rr :: parts)
        (Or.inr (Or.inl (by simp [hr]))))
    · by_cases hm : String.intercalate " " parts = ""
      · exact Or.inr (Enhanced.main_usage env events (rr :: parts)
          (Or.inr (Or.inr (by simp [hm]))))
      · left
        rw [Enhanced.main_valid env events rr parts hr hm]
        exact Enhanced.runEvents_no_ready env rr _ _ events h

/-- Minimal `main` without a `ready` event. -/
theorem Minimal.main_no_ready_min (env : Env) (args : List String) (events : List Event)
    (h : Event.ready ∉ events) :
    (Minimal.main env events args).2 = Outcome.value () ∨
    Minimal.main env events args =
      ([Effect.log StdStream.stderr Minimal.usageMsg], Outcome.exited 1) := by
  match args with
  | [] => exact Or.inr (Minimal.main_usage_min env events [] (Or.inl rfl))
  | r :: parts =>
    by_cases hr : r = ""
    · exact Or.inr (Minimal.main_usage_min env events (r :: parts)
        (Or.inr (Or.inl (by simp [hr]))))
    · by_cases hm : String.intercalate " " parts = ""
      · exact Or.inr (Minimal.main_usage_min env events (r :: parts)
          (Or.inr (Or.inr (by simp [hm]))))
      · left
        rw [Minimal.main_valid_min env events r parts hr hm]
        exact Minimal.runEvents_no_ready_min env r _ events h

/-- C6: when some chat's display name exactly equals the raw recipient
argument, the selection is decided by the name search alone — the result is
the first name match, and its name equals the recipient — so a name match
takes precedence over any numeric-identifier fallback match. -/
theorem name_match_precedence (rr r : String) (chats : List Chat)
    (h : chats.any (fun c => c.name == rr) = true) :
    Enhanced.findChat rr r chats = chats.find? (fun c => c.name == rr) ∧
    Option.map Chat.name (Enhanced.findChat rr r chats) = some rr := by
  have hsome : (chats.find? (fun c => c.name == rr)).isSome = true := by
    rw [List.find?_isSome]
    simpa using List.any_eq_true.mp h
  obtain ⟨c, hc⟩ := Option.isSome_iff_exists.mp hsome
  have hname : c.name = rr := by simpa using List.find?_some hc
  exact ⟨by simp [Enhanced.findChat, hc], by simp [Enhanced.findChat, hc, hname]⟩

/-- C6 witness: `Alice` is chosen by name even though the chat `Numeric`,
earlier in the list, matches the normalized identifier fallback. -/
theorem name_match_precedence_witness :
    Enhanced.findChat "Alice" "15551234567" [numChat, aliceChat] =
      [numChat, aliceChat].find? (fun c => c.name == "Alice") ∧
    Option.map Chat.name (Enhanced.findChat "Alice" "15551234567" [numChat, aliceChat]) =
      some "Alice" :=
  name_match_precedence "Alice" "15551234567" [numChat, aliceChat] (by decide)

/-- C8: the authentication-failure handler only logs the reason to standard
error and returns normally in both variants; and in any run whose fired
events do not include `ready`, the process either never terminates or
terminated through the usage check — so termination is triggered only by the
usage check or by the ready-handler's exit paths. -/
theorem auth_failure_only_logs :
    (∀ (env : Env) (rr r msg m : String),
      Enhanced.handleEvent env rr r msg (Event.authFailure m) =
        ([Effect.log StdStream.stderr ("Auth failure " ++ m)], Outcome.value ())) ∧
    (∀ (env : Env) (r msg m : String),
      Minimal.handleEvent env r msg (Event.authFailure m) =
        ([Effect.log StdStream.stderr ("Auth failure " ++ m)], Outcome.value ())) ∧
    (∀ (env : Env) (args : List String) (events : List Event),
      Event.ready ∉ events →
      (Enhanced.main env events args).2 = Outcome.value () ∨
      Enhanced.main env events args =
        ([Effect.log StdStream.stderr Enhanced.usageMsg], Outcome.exited 1)) ∧
    (∀ (env : Env) (args : List String) (events : List Event),
      Event.ready ∉ events →
      (Minimal.main env events args).2 = Outcome.value () ∨
      Minimal.main env events args =
        ([Effect.log StdStream.stderr Minimal.usageMsg], Outcome.exited 1)) :=
  ⟨fun _ _ _ _ _ => rfl, fun _ _ _ _ => rfl,
   Enhanced.main_no_ready, Minimal.main_no_ready_min⟩

/-- C8 witness: a run with valid arguments in which only an auth-failure
event fires does not terminate the process. -/
theorem auth_failure_only_logs_witness :
    Enhanced.handleEvent envOk "Alice" "Alice" "hi" (Event.authFailure "denied") =
      ([Effect.log StdStream.stderr "Auth failure denied"], Outcome.value ()) ∧
    ((Enhanced.main envOk [Event.authFailure "denied"] ["Alice", "hi"]).2 =
        Outcome.value () ∨
      Enhanced.main envOk [Event.authFailure "denied"] ["Alice", "hi"] =
        ([Effect.log StdStream.stderr Enhanced.usageMsg], Outcome.exited 1)) :=
  ⟨auth_failure_only_logs.1 envOk "Alice" "Alice" "hi" "denied",
   auth_failure_only_logs.2.2.1 envOk ["Alice", "hi"] [Event.authFailure "denied"]
     (by decide)⟩

/-- C9: usage validation looks at the raw recipient, before normalization: a
non-empty recipient made only of `+` and space characters passes the usage
check (the client is created and the event loop runs), its normalized form is
the empty string, and when no display name matches, the fallback lookup
compares the empty string with each chat's numeric user portion. -/
theorem raw_validation_before_normalization (env : Env) (events : List Event)
    (rr : String) (msgParts : List String)
    (hne : rr ≠ "")
    (hall : ∀ ch ∈ rr.data, ch = '+' ∨ ch = ' ')
    (hmsg : String.intercalate " " msgParts ≠ "") :
    Enhanced.normalizeRecipient rr = "" ∧
    Enhanced.main env events (rr :: msgParts) =
      (Effect.sessionCreate ::
        (Enhanced.runEvents env rr "" (String.intercalate " " msgParts) events).1,
       (Enhanced.runEvents env rr "" (String.intercalate " " msgParts) events).2) ∧
    (∀ chats : List Chat, chats.find? (fun c => c.name == rr) = none →
      Enhanced.findChat rr (Enhanced.normalizeRecipient rr) chats =
        chats.find? (fun c => c.id.user == "")) := by
  have hfilter : rr.data.filter (fun ch => !(ch == '+' || ch == ' ')) = [] := by
    rw [List.filter_eq_nil_iff]
    intro a ha
    rcases hall a ha with h | h <;> simp [h]
  have hnorm : Enhanced.normalizeRecipient rr = "" := by
    simp only [Enhanced.normalizeRecipient, hfilter]
  refine ⟨hnorm, ?_, ?_⟩
  · rw [Enhanced.main_valid env events rr msgParts hne hmsg, hnorm]
  · intro chats hf
    simp [Enhanced.findChat, hf, hnorm]

/-- C9 witness: the recipient `"+ "` passes validation, normalizes to the
empty string, and the fallback compares `""` with the chats' user ids. -/
theorem raw_validation_before_normalization_witness :
    Enhanced.normalizeRecipient "+ " = "" ∧
    Enhanced.findChat "+ " (Enhanced.normalizeRecipient "+ ") [aliceChat] =
      [aliceChat].find? (fun c => c.id.user == "") := by
  have h := raw_validation_before_normalization envOk [] "+ " ["hi"]
    (by decide) (by decide) (by decide)
  exact ⟨h.1, h.2.2 [aliceChat] (by decide)⟩

/-- C10: chat selection is deterministic in list order.  When the chats
before `c` fail the name criterion and `c` satisfies it, `c` is selected;
when no chat in the list matches by name, the chats before `c` fail the
identifier criterion and `c` satisfies it, `c` is selected; and likewise for
the minimal variant's name-only search. -/
theorem first_match_selected :
    (∀ (rr r : String) (l1 l2 : List Chat) (c : Chat),
      (∀ x ∈ l1, x.name ≠ rr) → c.name = rr →
      Enhanced.findChat rr r (l1 ++ c :: l2) = some c) ∧
    (∀ (rr r : String) (l1 l2 : List Chat) (c : Chat),
      (∀ x ∈ l1 ++ c :: l2, x.name ≠ rr) →
      (∀ x ∈ l1, x.id.user ≠ r) → c.id.user = r →
      Enhanced.findChat rr r (l1 ++ c :: l2) = some c) ∧
    (∀ (r : String) (l1 l2 : List Chat) (c : Chat),
      (∀ x ∈ l1, x.name ≠ r) → c.name = r →
      Minimal.findChat r (l1 ++ c :: l2) = some c) := by
  refine ⟨?_, ?_, ?_⟩
  · intro rr r l1 l2 c h1 hc
    have hfind : (l1 ++ c :: l2).find? (fun x => x.name == rr) = some c :=
      find_first _ l1 l2 c (fun x hx => by simp [h1 x hx]) (by simp [hc])
    simp [Enhanced.findChat, hfind]
  · intro rr r l1 l2 c hnone h1 hc
    have hname : (l1 ++ c :: l2).find? (fun x => x.name == rr) = none := by
      rw [List.find?_eq_none]
      intro x hx
      simp [hnone x hx]
    have hfind : (l1 ++ c :: l2).find? (fun x => x.id.user == r) = some c :=
      find_first _ l1 l2 c (fun x hx => by simp [h1 x hx]) (by simp [hc])
    simp [Enhanced.findChat, hname, hfind]
  · intro r l1 l2 c h1 hc
    exact find_first _ l1 l2 c (fun x hx => by simp [h1 x hx]) (by simp [hc])

/-- C10 witness: between two chats named `Dup` the first is selected, and
between two chats with user id `5` (and no name match) the first is
selected. -/
theorem first_match_selected_witness :
    Enhanced.findChat "Dup" "x" [dupA, dupB] = some dupA ∧
    Enhanced.findChat "Z" "5" [idA, idB] = some idA ∧
    Minimal.findChat "Dup" [dupA, dupB] = some dupA :=
  ⟨first_match_selected.1 "Dup" "x" [] [dupB] dupA (by decide) (by decide),
   first_match_selected.2.1 "Z" "5" [] [idB] idA (by decide) (by decide) (by decide),
   first_match_selected.2.2 "Dup" [] [dupB] dupA (by decide) (by decide)⟩
